import Mathlib

/-!
Verification of the JavSP file-organization core against its source
(`src/javsp/lib.py` and `src/javsp/datatype.py`).

Python strings are embedded as `List Char` (one element per code point, as in
Python, where `len` counts code points); `len(s.encode('utf-8'))` is embedded
as `byteLen` below.  Filesystem-touching code is embedded with an explicit
filesystem state and `Except`-valued results.
-/

set_option autoImplicit false

abbrev PyStr := List Char

/-- Number of bytes of the UTF-8 encoding of a string: `len(s.encode('utf-8'))`. -/
def byteLen (s : PyStr) : Nat := (s.map Char.utf8Size).sum

/-- The inner `get_length` helper of `truncate_filename` (lib.py lines 92-93):
`len(s.encode('utf-8')) if by_byte else len(s)`. -/
def get_length (by_byte : Bool) (s : PyStr) : Nat :=
  if by_byte then byteLen s else s.length

/-- Longest prefix whose UTF-8 encoding fits in `n` bytes.  This embeds the
Python idiom `s.encode('utf-8')[:n]` followed by stripping trailing bytes until
the result decodes (lib.py lines 138-147 and 156-164) or decoding with
`errors='ignore'` (line 106): slicing the byte string of a valid UTF-8 text at
`n` and repairing to a character boundary keeps exactly the characters that fit
completely within the first `n` bytes. -/
def takeBytes : PyStr → Nat → PyStr
  | [], _ => []
  | c :: cs, n => if c.utf8Size ≤ n then c :: takeBytes cs (n - c.utf8Size) else []

/-- Index of the last occurrence of `c` in `s` (`s.rfind(c)` when it is not -1). -/
def lastIdxOf (c : Char) (s : PyStr) : Option Nat :=
  match s.reverse.findIdx? (fun d => d = c) with
  | none => none
  | some i => some (s.length - 1 - i)

/-- `os.path.splitext` for POSIX paths: split at the last dot, provided that dot
comes after the last path separator and the name part before it is not made of
dots only (CPython `genericpath._splitext`). -/
def splitext (s : PyStr) : PyStr × PyStr :=
  match lastIdxOf '.' s with
  | none => (s, [])
  | some d =>
    let sepOk : Bool := match lastIdxOf '/' s with
      | none => true
      | some j => decide (j < d)
    let nameStart : Nat := match lastIdxOf '/' s with
      | none => 0
      | some j => j + 1
    if sepOk ∧ ((s.drop nameStart).take (d - nameStart)).any (fun ch => ch ≠ '.') then
      (s.take d, s.drop d)
    else (s, [])

/-- `os.path.basename` for POSIX paths: everything after the last `/`. -/
def basenameOf (p : PyStr) : PyStr :=
  (p.reverse.takeWhile (fun c => c ≠ '/')).reverse

/-- `needle` occurs as a contiguous substring of the second argument
(the boolean outcome of `re` searching for a literal). -/
def hasInfix (needle : PyStr) : PyStr → Bool
  | [] => needle.isEmpty
  | c :: tl => needle.isPrefixOf (c :: tl) || hasInfix needle tl

/-- One position of the CJK branch `[无無][码碼](流出|破解)` of `_PATTERN`. -/
def cjkLeakAt : PyStr → Bool
  | a :: b :: rest =>
      (a == '无' || a == '無') && (b == '码' || b == '碼') &&
      ("流出".data.isPrefixOf rest || "破解".data.isPrefixOf rest)
  | _ => false

/-- The CJK branch of `_PATTERN` matches somewhere in the string. -/
def hasCJKLeak : PyStr → Bool
  | [] => false
  | c :: tl => cjkLeakAt (c :: tl) || hasCJKLeak tl

/-- Embeds `_PATTERN.search(base) is not None` (lib.py line 46) where
`_PATTERN = (uncen(sor(ed)?)?([- _\s]*leak(ed)?)?|[无無][码碼](流出|破解))` with
`re.I`.  In the first alternative everything after the literal `uncen` is
optional, so that alternative matches at some position iff `uncen` occurs
there; the search input is already uppercased, so case-insensitive `uncen`
occurs iff the literal `UNCEN` occurs. -/
def pattern_search (base : PyStr) : Bool :=
  hasInfix "UNCEN".data base || hasCJKLeak base

/-- `base.split('-')[-1]`: the segment after the last hyphen (the whole string
when there is no hyphen). -/
def lastSeg (s : PyStr) : PyStr :=
  (s.reverse.takeWhile (fun c => c ≠ '-')).reverse

/-- Characters matched by the regex class `[_-]`. -/
def sepChar (c : Char) : Bool := c == '-' || c == '_'

/-- State of the regex group numbered 1 while matching the avid part of the
pattern.  lib.py line 64 interpolates `avid` into the pattern UNESCAPED
(`re_escape` exists in lib.py but is not used there), so a `(` in the
identifier opens a capture group that takes over group number 1 from the
appended `(UC|U|C)`.  `inGroup` records the text captured so far and the
nesting depth of further `(` inside it; `closedGrp` records the finished
capture of the identifier's first group. -/
inductive GrpState where
  | notStarted : GrpState
  | inGroup : PyStr → Nat → GrpState
  | closedGrp : PyStr → GrpState
deriving DecidableEq

/-- Characters of the input consumed while group 1 is open are part of its
capture. -/
def GrpState.addChars (st : GrpState) (cs : PyStr) : GrpState :=
  match st with
  | .inGroup acc d => .inGroup (acc ++ cs) d
  | st => st

/-- Match the avid part of the pattern (lib.py line 64):
`re.sub(r'[_-]', '[_-]*', avid)` turns each separator of `avid` into `[_-]*`
and keeps the other characters as pattern text (compared case-insensitively
under `re.I`).  Because the identifier is interpolated unescaped, `(` and `)`
are group parentheses: they consume no input, and the first `(` starts capture
group 1 (tracked by `GrpState`).  Greedily consuming separators is exact here
because the pattern character following a `[_-]*` is never itself `-` or `_`.
Returns the rest of the input after the match together with the group state.
Modeled domain: identifiers made of non-metacharacter text, `-`/`_` and
balanced parentheses; a `)` with no group open makes the whole pattern invalid
in Python (`re.error: unbalanced parenthesis`) and is out of the modeled
domain (no theorem evaluates it), as are other regex metacharacters. -/
def matchLits : PyStr → PyStr → GrpState → Option (PyStr × GrpState)
  | [], rest, st => some (rest, st)
  | a :: tlA, rest, st =>
      if a = '(' then
        matchLits tlA rest
          (match st with
           | .notStarted => .inGroup [] 0
           | .inGroup acc d => .inGroup acc (d + 1)
           | .closedGrp c => .closedGrp c)
      else if a = ')' then
        match st with
        | .notStarted => none
        | .inGroup acc 0 => matchLits tlA rest (.closedGrp acc)
        | .inGroup acc (d + 1) => matchLits tlA rest (.inGroup acc d)
        | .closedGrp c => matchLits tlA rest (.closedGrp c)
      else if sepChar a then
        matchLits tlA (rest.dropWhile (fun c => sepChar c))
          (st.addChars (rest.takeWhile (fun c => sepChar c)))
      else match rest with
        | [] => none
        | b :: tlB =>
            if a.toUpper == b.toUpper then matchLits tlA tlB (st.addChars [b])
            else none

/-- Python `\w` (word character) for the character sets reached here: ASCII
alphanumerics and underscore; non-ASCII code points (CJK, kana, ...) are word
characters in Unicode mode and are approximated as such. -/
def isWordChar (c : Char) : Bool := c.isAlphanum || c == '_' || decide (c.val ≥ 0x80)

/-- `\b` holds between a word character and this remainder of the input. -/
def boundaryOk : PyStr → Bool
  | [] => true
  | c :: _ => !(isWordChar c)

/-- Match `(UC|U|C)\b` at the head of the input and return the captured group,
following the regex alternation/backtracking order: `UC` is tried first; when
`UC` matched but the boundary fails, the `U` alternative also fails (the next
character `C` is a word character), and the `C` alternative needs a leading
`C`.  The input is already uppercased. -/
def grpMatch (r : PyStr) : Option PyStr :=
  match r with
  | c1 :: c2 :: rest =>
      if c1 = 'U' ∧ c2 = 'C' then (if boundaryOk rest then some ['U', 'C'] else none)
      else if c1 = 'U' then (if boundaryOk (c2 :: rest) then some ['U'] else none)
      else if c1 = 'C' then (if boundaryOk (c2 :: rest) then some ['C'] else none)
      else none
  | [c1] =>
      if c1 = 'U' then some ['U'] else if c1 = 'C' then some ['C'] else none
  | [] => none

/-- Try the full avid pattern at one position and return `match.group(1)`.
When the identifier contains no parentheses, group 1 is the appended
`(UC|U|C)`; when it contains a (balanced) group, that group is number 1 and
`match.group(1)` is whatever text it captured — the `(UC|U|C)` part must still
match for the search to succeed, but its capture is not the one returned.  An
identifier whose parentheses never close makes the pattern invalid in Python
(`re.error`) and is out of the modeled domain (`none` here; no theorem
evaluates it). -/
def tryMatchAt (avid rest : PyStr) : Option PyStr :=
  match matchLits avid rest .notStarted with
  | none => none
  | some (r, st) =>
      match grpMatch r with
      | none => none
      | some g =>
          match st with
          | .notStarted => some g
          | .closedGrp cap => some cap
          | .inGroup _ _ => none

/-- `re.search(pattern_str, base, flags=re.I)` for the avid pattern: try every
start position left to right and return `match.group(1)` of the first
match. -/
def searchAvid (avid : PyStr) : PyStr → Option PyStr
  | [] => tryMatchAt avid []
  | b :: bs =>
      match tryMatchAt avid (b :: bs) with
      | some g => some g
      | none => searchAvid avid bs

/-- Insert a character into a descending-sorted list, keeping it sorted. -/
def insertDesc (c : Char) : PyStr → PyStr
  | [] => [c]
  | d :: ds => if c > d then c :: d :: ds else d :: insertDesc c ds

/-- Sort characters in descending code-point order. -/
def sortDesc : PyStr → PyStr
  | [] => []
  | c :: cs => insertDesc c (sortDesc cs)

/-- Embeds `''.join(sorted(set(result), reverse=True))` (lib.py line 69): the
distinct characters of `result`, largest code point first. -/
def sortedDescDedup (r : PyStr) : PyStr := sortDesc r.dedup

/-- `os.path.splitext(os.path.basename(filepath))[0].upper()` (lib.py line 54).
`Char.toUpper` uppercases ASCII letters, which is exact for the ASCII keywords
and suffix tokens this detector looks for; CJK characters are unaffected by
uppercasing in both languages. -/
def detect_base (filepath : PyStr) : PyStr :=
  ((splitext (basenameOf filepath)).1).map Char.toUpper

/-- The `elif avid:` branch of `detect_special_attr` (lib.py lines 63-67):
what the avid-pattern search appends to `result`.  `avid=None` and `avid=''`
are both falsy in Python and contribute nothing. -/
def avid_contribution (avid : Option PyStr) (base : PyStr) : PyStr :=
  match avid with
  | some a =>
      if a = [] then []
      else
        match searchAvid a base with
        | some g => g
        | none => []
  | none => []

/-- `detect_special_attr(filepath, avid)` (lib.py lines 47-70): a regex keyword
check contributing `U`, a trailing `-U`/`-C`/`-UC` segment check, an avid-based
suffix check contributing the captured `UC`/`U`/`C`, then
`''.join(sorted(set(result), reverse=True))`. -/
def detect_special_attr (filepath : PyStr) (avid : Option PyStr := none) : PyStr :=
  sortedDescDedup
    ((if pattern_search (detect_base filepath) then ['U'] else []) ++
     (if lastSeg (detect_base filepath) = ['U'] ∨ lastSeg (detect_base filepath) = ['C'] ∨
         lastSeg (detect_base filepath) = ['U', 'C'] then
        lastSeg (detect_base filepath)
      else avid_contribution avid (detect_base filepath)))

/-- The `punctuation_chars` literal of lib.py line 111.  In the Python source it
is two adjacent single-quoted literals (so it contains two ASCII double quotes
and no apostrophes). -/
def punctuation_chars : PyStr :=
  "。！？；，、：\"\"（）【】《》〈〉…·～—-_=+|\\/*&^%$#@".data

/-- One step of the chunking loop of lib.py lines 114-124: characters are
accumulated into `current_part` (held reversed) and a part is emitted right
after every punctuation character; a nonempty trailing part is emitted at the
end. -/
def split_punct_aux (cur : PyStr) : PyStr → List PyStr
  | [] => if cur.isEmpty then [] else [cur.reverse]
  | c :: rest =>
      if c ∈ punctuation_chars then (c :: cur).reverse :: split_punct_aux [] rest
      else split_punct_aux (c :: cur) rest

/-- Split `base_name` into chunks, breaking immediately after punctuation. -/
def split_punct (s : PyStr) : List PyStr := split_punct_aux [] s

/-- The accumulation loop of lib.py lines 127-151: greedily append whole parts
while the measured length stays within `available_length`; at the first part
that would overflow, append the largest piece of it that still fits (by
characters, or by bytes without splitting a code point) and stop. -/
def accumulate (by_byte : Bool) (available_length : Nat) : List PyStr → PyStr → PyStr
  | [], result => result
  | part :: rest, result =>
      if get_length by_byte (result ++ part) ≤ available_length then
        accumulate by_byte available_length rest (result ++ part)
      else
        let remaining_length := available_length - get_length by_byte result
        if remaining_length > 0 then
          result ++ (if by_byte then takeBytes part remaining_length
                     else part.take remaining_length)
        else result

/-- `truncate_filename(filename, max_length, by_byte, preserve_ext)`
(lib.py lines 73-168).  `max_length` is a `Nat`: the Python parameter is an
`int`, and all call sites pass a nonnegative length limit; with nonnegative
lengths, Python's `available_length <= 0` test is exactly `max_length ≤
ext_length`, embedded here with truncated subtraction. -/
def truncate_filename (filename : PyStr) (max_length : Nat)
    (by_byte : Bool := false) (preserve_ext : Bool := true) : PyStr :=
  if filename = [] then filename
  else
    let base_name := if preserve_ext then (splitext filename).1 else filename
    let ext := if preserve_ext then (splitext filename).2 else []
    if get_length by_byte filename ≤ max_length then filename
    else
      let ext_length := get_length by_byte ext
      if max_length ≤ ext_length then
        if preserve_ext ∧ ext_length > 0 then
          if by_byte then takeBytes ext max_length else ext.take max_length
        else []
      else
        let available_length := max_length - ext_length
        let result0 := accumulate by_byte available_length (split_punct base_name) []
        let result :=
          if result0 = [] ∨ get_length by_byte result0 > available_length then
            (if by_byte then takeBytes base_name available_length
             else base_name.take available_length)
          else result0
        result ++ ext

/-- One directory entry as `is_folder_safe_to_delete` observes it: its name,
whether it is a subdirectory, and the result of `os.path.getsize` (`none` when
`getsize` raises `OSError`). -/
structure DirEntry where
  name : PyStr
  isDir : Bool
  size : Option Nat
deriving DecidableEq

/-- The state of one folder path as `is_folder_safe_to_delete` observes it:
whether `os.path.exists` and `os.path.isdir` hold, and the outcome of
`os.listdir` (`Except.error` carries the stringified `OSError`). -/
structure FolderState where
  fsExists : Bool
  fsIsDir : Bool
  entries : Except PyStr (List DirEntry)

/-- Default `keep_video_extensions` of lib.py lines 186-190. -/
def default_video_extensions : List PyStr :=
  [".3gp".data, ".avi".data, ".f4v".data, ".flv".data, ".iso".data, ".m2ts".data,
   ".m4v".data, ".mkv".data, ".mov".data, ".mp4".data, ".mpeg".data, ".rm".data,
   ".rmvb".data, ".ts".data, ".vob".data, ".webm".data, ".wmv".data, ".strm".data,
   ".mpg".data]

/-- `deletable_extensions` of lib.py lines 193-206. -/
def deletable_extensions : List PyStr :=
  [".jpg".data, ".jpeg".data, ".png".data, ".gif".data, ".bmp".data, ".tiff".data,
   ".tif".data, ".webp".data,
   ".nfo".data, ".xml".data, ".txt".data, ".json".data, ".db".data, ".ini".data,
   ".log".data,
   ".srt".data, ".ass".data, ".ssa".data, ".vtt".data, ".sub".data, ".idx".data,
   ".sup".data,
   ".url".data, ".lnk".data, ".torrent".data, ".magnet".data, ".md5".data,
   ".sha1".data,
   ".tmp".data, ".temp".data, ".bak".data, ".old".data, ".~".data, ".swp".data,
   ".ds_store".data, "thumbs.db".data, "desktop.ini".data]

/-- `deletable_filenames` of lib.py lines 209-215. -/
def deletable_filenames : List PyStr :=
  ["thumbs.db".data, "desktop.ini".data, ".ds_store".data, "folder.jpg".data,
   "folder.png".data, "cover.jpg".data, "cover.png".data, "poster.jpg".data,
   "poster.png".data, "fanart.jpg".data, "fanart.png".data, "background.jpg".data,
   "background.png".data, "banner.jpg".data, "banner.png".data, "logo.jpg".data,
   "logo.png".data, "movie.nfo".data, "tvshow.nfo".data, "season.nfo".data,
   "episode.nfo".data]

/-- Per-entry body of the `os.listdir` loop of lib.py lines 220-253: `some
reason` when the entry is appended to `important_files`, `none` when it is
skipped as deletable. -/
def classify_entry (keep : List PyStr) (item : DirEntry) : Option PyStr :=
  if item.isDir then some ("子目录: ".data ++ item.name)
  else
    let item_lower := item.name.map Char.toLower
    let ext := (splitext item_lower).2
    if ext ∈ keep.map (List.map Char.toLower) then some ("视频文件: ".data ++ item.name)
    else if ext ∈ deletable_extensions then none
    else if item_lower ∈ deletable_filenames then none
    else
      match item.size with
      | some n => if n < 1024 * 10 then none else some ("未知文件: ".data ++ item.name)
      | none => some ("未知文件: ".data ++ item.name)

/-- `is_folder_safe_to_delete(folder_path, keep_video_extensions)` (lib.py
lines 171-259) over an observed `FolderState`: `(can_delete, important_files)`.
`keep_video_extensions=None` selects the default list. -/
def is_folder_safe_to_delete (folder : FolderState)
    (keep_video_extensions : Option (List PyStr) := none) : Bool × List PyStr :=
  if ¬(folder.fsExists = true ∧ folder.fsIsDir = true) then (true, [])
  else
    let keep := keep_video_extensions.getD default_video_extensions
    match folder.entries with
    | .error e => (false, ["访问目录失败: ".data ++ e])
    | .ok items =>
        let important_files := items.filterMap (classify_entry keep)
        (important_files.isEmpty, important_files)

/-- A filesystem as `Movie.rename_files` observes it: the set of existing file
paths, plus the paths on which `os.remove` raises `OSError` even though the
file exists (permissions and the like).  Paths are compared literally; the
paths handed to the embedded operations are taken to be absolute, so
`os.path.abspath` is the identity. -/
structure FS where
  files : List PyStr
  removeFails : List PyStr
deriving DecidableEq

/-- Python exceptions that can escape `Movie.rename_files`. -/
inductive PyErr where
  /-- `FileExistsError(msg)` raised at datatype.py line 190. -/
  | fileExistsErr : PyStr → PyErr
  /-- An uncaught `OSError` from `shutil.move`/`os.link` on a missing source. -/
  | osErr : PyStr → PyErr
  /-- `IndexError` from `self.files[0]` (datatype.py line 207) on an empty set. -/
  | indexErr : PyErr
deriving DecidableEq

/-- Message of the `FileExistsError` of datatype.py line 190. -/
def dupMsg (abs_dst : PyStr) : PyStr :=
  "目标文件已存在且无法删除源文件: ".data ++ abs_dst

/-- `os.remove`: the path disappears from the filesystem. -/
def removeFile (fs : FS) (p : PyStr) : FS :=
  { fs with files := fs.files.erase p }

/-- A new directory entry appears (by `os.link` or `shutil.move`). -/
def addFile (fs : FS) (p : PyStr) : FS :=
  { fs with files := p :: fs.files }

/-- The inner `move_file(src, dst)` of `Movie.rename_files` (datatype.py lines
172-204).  If the destination exists, the source is deleted and `False` is
returned; if that deletion raises `OSError` (missing source or undeletable
file), `FileExistsError` is raised.  Otherwise the target directory is created
(`os.makedirs(..., exist_ok=True)`, assumed to succeed) and the file is
hard-linked (source kept) or moved (source removed); a missing source then
raises an uncaught `OSError`. -/
def move_file (fs : FS) (use_hardlink : Bool) (src dst : PyStr) :
    Except PyErr (Bool × FS) :=
  if dst ∈ fs.files then
    if src ∈ fs.files ∧ src ∉ fs.removeFails then .ok (false, removeFile fs src)
    else .error (.fileExistsErr (dupMsg dst))
  else
    if src ∈ fs.files then
      .ok (true, addFile (if use_hardlink then fs else removeFile fs src) dst)
    else .error (.osErr src)

/-- `f'-CD{i}'`. -/
def cdTag (i : Nat) : PyStr := "-CD".data ++ (Nat.repr i).data

/-- `os.path.join` for POSIX paths (`posixpath.join` with one component). -/
def pjoin (a b : PyStr) : PyStr :=
  if b.head? = some '/' then b
  else if a = [] ∨ a.getLast? = some '/' then a ++ b
  else a ++ '/' :: b

/-- `os.path.splitext(fullpath)[1]`. -/
def extOf (p : PyStr) : PyStr := (splitext p).2

/-- The multi-file loop of `Movie.rename_files` (datatype.py lines 215-219):
`for i, fullpath in enumerate(self.files, start=1)`, moving each file to
`save_dir / (basename + f'-CD{i}' + ext)` and collecting the new path when the
file was actually moved; any raised error aborts the remaining files. -/
def cd_loop (use_hardlink : Bool) (save_dir basename : PyStr) :
    Nat → List PyStr → FS → Except PyErr (List PyStr × FS)
  | _, [], fs => .ok ([], fs)
  | i, fullpath :: rest, fs =>
      let newpath := pjoin save_dir (basename ++ cdTag i ++ extOf fullpath)
      match move_file fs use_hardlink fullpath newpath with
      | .error e => .error e
      | .ok (moved, fs1) =>
          match cd_loop use_hardlink save_dir basename (i + 1) rest fs1 with
          | .error e => .error e
          | .ok (paths, fs2) => .ok (if moved then newpath :: paths else paths, fs2)

/-- `Movie.rename_files` (datatype.py lines 170-224) up to and including the
construction of `self.new_paths`; the optional trailing cleanup step (lines
222-224) only touches the source folder and swallows every exception inside
`_cleanup_source_folder`, so it affects neither the returned paths nor whether
the call raises.  An empty file list raises `IndexError` at
`os.path.dirname(self.files[0])` (line 207). -/
def rename_files (use_hardlink : Bool) (save_dir basename : PyStr)
    (files : List PyStr) (fs : FS) : Except PyErr (List PyStr × FS) :=
  match files with
  | [] => .error .indexErr
  | [fullpath] =>
      let newpath := pjoin save_dir (basename ++ extOf fullpath)
      match move_file fs use_hardlink fullpath newpath with
      | .error e => .error e
      | .ok (moved, fs1) => .ok (if moved then [newpath] else [], fs1)
  | fullpath :: next :: more =>
      cd_loop use_hardlink save_dir basename 1 (fullpath :: next :: more) fs

/-- The destination paths `Movie.rename_files` computes, in original file
order: `{basename}{ext}` for a single-file set, `{basename}-CD{i}{ext}`
(1-indexed) otherwise. -/
def cd_dests (save_dir basename : PyStr) : Nat → List PyStr → List PyStr
  | _, [] => []
  | i, fullpath :: rest =>
      pjoin save_dir (basename ++ cdTag i ++ extOf fullpath) ::
        cd_dests save_dir basename (i + 1) rest

/-- All destination paths of a set, following the single/multi branch split of
`rename_files`. -/
def rename_dests (save_dir basename : PyStr) (files : List PyStr) : List PyStr :=
  match files with
  | [] => []
  | [fullpath] => [pjoin save_dir (basename ++ extOf fullpath)]
  | fullpath :: next :: more =>
      cd_dests save_dir basename 1 (fullpath :: next :: more)

/-- The destination computed for the first file of a nonempty set. -/
def first_dest (save_dir basename : PyStr) (files : List PyStr) : PyStr :=
  match files with
  | [] => []
  | [fullpath] => pjoin save_dir (basename ++ extOf fullpath)
  | fullpath :: _ :: _ => pjoin save_dir (basename ++ cdTag 1 ++ extOf fullpath)

/-- The fields of `Movie` (datatype.py class Movie) that its cached attribute
properties read: the DVD identifier and the associated file list. -/
structure Movie where
  dvdid : Option PyStr
  files : List PyStr

/-- `Movie.attr_str` (datatype.py lines 152-161): empty for anything but a
single-file movie, otherwise `detect_special_attr` of the file, prefixed with
`-` when nonempty. -/
def Movie.attr_str (m : Movie) : PyStr :=
  match m.files with
  | [f] =>
      let r := detect_special_attr f m.dvdid
      if r = [] then r else '-' :: r
  | _ => []

/-- `Movie.hard_sub` (datatype.py lines 142-145): `'C' in self.attr_str`. -/
def Movie.hard_sub (m : Movie) : Bool := m.attr_str.contains 'C'

/-- `Movie.uncensored` (datatype.py lines 147-150): `'U' in self.attr_str`. -/
def Movie.uncensored (m : Movie) : Bool := m.attr_str.contains 'U'

theorem byteLen_nil : byteLen [] = 0 := rfl

theorem byteLen_cons (c : Char) (s : PyStr) :
    byteLen (c :: s) = c.utf8Size + byteLen s := by
  simp [byteLen]

theorem byteLen_append (a b : PyStr) : byteLen (a ++ b) = byteLen a + byteLen b := by
  simp [byteLen]

theorem get_length_append (bb : Bool) (a b : PyStr) :
    get_length bb (a ++ b) = get_length bb a + get_length bb b := by
  cases bb <;> simp [get_length, byteLen]

theorem get_length_nil (bb : Bool) : get_length bb [] = 0 := by
  cases bb <;> simp [get_length, byteLen]

theorem byteLen_takeBytes_le (s : PyStr) (n : Nat) : byteLen (takeBytes s n) ≤ n := by
  induction s generalizing n with
  | nil => simp [takeBytes, byteLen]
  | cons c cs ih =>
    unfold takeBytes
    split_ifs with h
    · have := ih (n - c.utf8Size)
      rw [byteLen_cons]
      omega
    · simp [byteLen]

theorem get_length_trunc_le (bb : Bool) (s : PyStr) (n : Nat) :
    get_length bb (if bb then takeBytes s n else s.take n) ≤ n := by
  cases bb with
  | false => simp [get_length]
  | true => simpa [get_length] using byteLen_takeBytes_le s n

theorem length_take_le' (s : PyStr) (n : Nat) : (s.take n).length ≤ n := by
  simp [List.length_take]

/-- Claim C5: for every filename, maximum length, length unit (characters or
bytes) and preserve-extension flag, the result of `truncate_filename` measured
in the chosen unit is at most the maximum.  This holds with no exception
needed: even in the degraded case where the extension alone meets or exceeds
the budget under `preserve_ext`, the code returns the extension truncated to
`max_length`, which still fits the budget, so the bound also covers the case
the claim exempts. -/
theorem truncate_filename_length_le (filename : PyStr) (max_length : Nat)
    (by_byte preserve_ext : Bool) :
    get_length by_byte (truncate_filename filename max_length by_byte preserve_ext) ≤
      max_length := by
  by_cases h0 : filename = []
  · simp [truncate_filename, h0, get_length_nil]
  · cases by_byte <;> cases preserve_ext <;>
      simp only [truncate_filename, get_length, if_neg h0, Bool.false_eq_true,
        if_true, if_false, ite_true, ite_false, true_and, false_and] <;>
      split_ifs <;>
      (try simp_all [byteLen_append, byteLen_nil, List.length_append,
        byteLen_takeBytes_le, length_take_le']) <;>
      first
        | omega
        | (have hx := byteLen_takeBytes_le (splitext filename).1
              (max_length - byteLen (splitext filename).2)
           omega)

/-- Claim C9: `truncate_filename` returns an already-short name unchanged:
when the measured length of the whole filename in the chosen unit is at most
the maximum, the input is returned as is (lib.py lines 85-86 and 95-97). -/
theorem truncate_filename_idempotent (filename : PyStr) (max_length : Nat)
    (by_byte preserve_ext : Bool)
    (h : get_length by_byte filename ≤ max_length) :
    truncate_filename filename max_length by_byte preserve_ext = filename := by
  by_cases h0 : filename = []
  · simp [truncate_filename, h0]
  · simp [truncate_filename, h0, h]

/-- Witness for `truncate_filename_idempotent`: a concrete short name is
returned unchanged. -/
theorem truncate_filename_idempotent_witness :
    truncate_filename "ab.mp4".data 10 false true = "ab.mp4".data :=
  truncate_filename_idempotent "ab.mp4".data 10 false true (by decide)

/-- Claim C7: `is_folder_safe_to_delete` on a path that does not exist or is
not a directory returns the vacuously safe verdict `(True, [])` (lib.py lines
181-182). -/
theorem folder_safety_vacuous (folder : FolderState)
    (keep_video_extensions : Option (List PyStr))
    (h : ¬(folder.fsExists = true ∧ folder.fsIsDir = true)) :
    is_folder_safe_to_delete folder keep_video_extensions = (true, []) := by
  unfold is_folder_safe_to_delete
  rw [if_pos h]

/-- Witness for `folder_safety_vacuous`: a non-existent path is vacuously
safe. -/
theorem folder_safety_vacuous_witness :
    is_folder_safe_to_delete ⟨false, false, Except.ok []⟩ none = (true, []) :=
  folder_safety_vacuous ⟨false, false, Except.ok []⟩ none (by decide)

/-- Claim C8: for every folder state and every set of important extensions,
the verdict of `is_folder_safe_to_delete` is safe exactly when its list of
blocking reasons is empty; and the branch where listing the directory fails
with an I/O error yields an unsafe verdict with one diagnostic reason (lib.py
lines 255-259). -/
theorem folder_safety_verdict_iff (folder : FolderState)
    (keep_video_extensions : Option (List PyStr)) :
    ((is_folder_safe_to_delete folder keep_video_extensions).1 = true ↔
      (is_folder_safe_to_delete folder keep_video_extensions).2 = []) ∧
    (∀ e, folder.fsExists = true → folder.fsIsDir = true →
      folder.entries = .error e →
      is_folder_safe_to_delete folder keep_video_extensions =
        (false, ["访问目录失败: ".data ++ e])) := by
  by_cases h : folder.fsExists = true ∧ folder.fsIsDir = true
  · obtain ⟨h1, h2⟩ := h
    constructor
    · unfold is_folder_safe_to_delete
      rw [if_neg (by simp [h1, h2])]
      cases he : folder.entries with
      | error e => simp
      | ok items => simp [List.isEmpty_iff]
    · intro e _ _ he
      unfold is_folder_safe_to_delete
      rw [if_neg (by simp [h1, h2]), he]
  · have hv : is_folder_safe_to_delete folder keep_video_extensions = (true, []) := by
      unfold is_folder_safe_to_delete
      rw [if_pos h]
    constructor
    · rw [hv]
      simp
    · intro e he1 he2 _
      exact absurd ⟨he1, he2⟩ h

/-- Witness for `folder_safety_verdict_iff`: a listing failure yields an
unsafe verdict carrying the diagnostic reason. -/
theorem folder_safety_verdict_iff_witness :
    is_folder_safe_to_delete ⟨true, true, Except.error "boom".data⟩ none =
      (false, ["访问目录失败: ".data ++ "boom".data]) :=
  (folder_safety_verdict_iff ⟨true, true, Except.error "boom".data⟩ none).2
    "boom".data rfl rfl rfl

/-- Claim C10: for every `Movie` whose file list does not have exactly one
element, `attr_str` is empty and therefore `hard_sub` and `uncensored` are
both false, regardless of the filenames or the identifier (datatype.py lines
142-161: `if len(self.files) != 1: return ''`). -/
theorem movie_attr_str_multifile (m : Movie) (h : m.files.length ≠ 1) :
    m.attr_str = [] ∧ m.hard_sub = false ∧ m.uncensored = false := by
  have ha : m.attr_str = [] := by
    unfold Movie.attr_str
    match hm : m.files with
    | [] => rfl
    | [f] => exact absurd (by rw [hm]; rfl) h
    | a :: b :: t => rfl
  refine ⟨ha, ?_, ?_⟩ <;> simp [Movie.hard_sub, Movie.uncensored, ha]

/-- Witness for `movie_attr_str_multifile`: a movie with no associated files
has an empty attribute string and neither special attribute. -/
theorem movie_attr_str_multifile_witness :
    (⟨none, []⟩ : Movie).attr_str = [] ∧ (⟨none, []⟩ : Movie).hard_sub = false ∧
      (⟨none, []⟩ : Movie).uncensored = false :=
  movie_attr_str_multifile ⟨none, []⟩ (by decide)

/-- Counterexample to claim C1: the spec's second worked example is false on
the code.  `detect_special_attr("TITLE-001-LEAKED.ext", "TITLE-001")` is `""`,
not `"U"`: in `_PATTERN` the `leak(ed)?` part is only an optional suffix of
the mandatory literal `uncen`, so a bare `LEAKED` matches nothing, the
trailing segment `LEAKED` is not `U`/`C`/`UC`, and the avid pattern requires
`UC|U|C` directly after `TITLE[_-]*001`. -/
theorem detect_leaked_counterexample :
    detect_special_attr "TITLE-001-LEAKED.ext".data (some "TITLE-001".data) ≠
      "U".data := by
  decide

/-- Claim C1 (amended): of the spec's three worked examples the first and
third hold, but `detect_special_attr("TITLE-001-LEAKED.ext", "TITLE-001")`
returns `""`: the Latin keyword LEAK/LEAKED contributes `U` only as an
optional suffix of the `UNCEN`-family keyword, as the fourth conjunct shows. -/
theorem detect_worked_examples :
    detect_special_attr "TITLE-001-UC.ext".data (some "TITLE-001".data) = "UC".data ∧
    detect_special_attr "TITLE-001-LEAKED.ext".data (some "TITLE-001".data) = "".data ∧
    detect_special_attr "TITLE-001.ext".data (some "TITLE-001".data) = "".data ∧
    detect_special_attr "TITLE-001-UNCEN-LEAKED.ext".data (some "TITLE-001".data) =
      "U".data := by
  decide

/-- Claim C6 (code bug): the claim — and the function's own docstring (lib.py
lines 50-52, `Returns: '', 'U', 'C', 'UC'`) — say the result of
`detect_special_attr` is always a subsequence of `"UC"`, but the identifier is
interpolated into the regex unescaped (`re_escape` is defined in lib.py yet
unused here), so an identifier containing parentheses renumbers the groups and
`match.group(1)` returns the identifier's own captured text:
`detect_special_attr("XU!.mp4", "(X)")` returns `"X"`, which is none of `""`,
`"U"`, `"C"`, `"UC"`.  (Identifiers with other metacharacters can even raise
`re.error` at `re.search`, e.g. `avid="["`.) -/
theorem detect_unescaped_avid_bug :
    detect_special_attr "XU!.mp4".data (some "(X)".data) = "X".data ∧
    ¬(detect_special_attr "XU!.mp4".data (some "(X)".data) = "".data ∨
      detect_special_attr "XU!.mp4".data (some "(X)".data) = "U".data ∨
      detect_special_attr "XU!.mp4".data (some "(X)".data) = "C".data ∨
      detect_special_attr "XU!.mp4".data (some "(X)".data) = "UC".data) := by
  decide

/-- Counterexample to claim C2: re-relocating a set whose single file has
already been moved (source absent, destination present) does not return with a
non-fatal source-missing report — it raises.  The destination exists, so
`move_file` tries `os.remove` on the missing source, the resulting `OSError`
is caught, and `FileExistsError` is raised (datatype.py lines 181-190). -/
theorem rerun_relocate_raises_counterexample :
    rename_files false "out".data "X".data ["src/v.mp4".data]
        ⟨["out/X.mp4".data], []⟩ =
      .error (.fileExistsErr (dupMsg "out/X.mp4".data)) := by
  rfl

/-- Claim C2 (amended): re-`Relocate`-ing a set whose files have already been
moved does not report a non-fatal `SourceMissing` condition per file; instead
the call raises `FileExistsError` ("destination exists and source cannot be
deleted") on the first file and aborts.  Stated for any nonempty file list
whose first source is absent and whose first destination is present — in
particular for the claim's scenario where this holds for every file. -/
theorem rerun_relocate_raises (use_hardlink : Bool) (save_dir basename : PyStr)
    (f : PyStr) (rest : List PyStr) (fs : FS)
    (hsrc : f ∉ fs.files)
    (hdst : first_dest save_dir basename (f :: rest) ∈ fs.files) :
    rename_files use_hardlink save_dir basename (f :: rest) fs =
      .error (.fileExistsErr (dupMsg (first_dest save_dir basename (f :: rest)))) := by
  have hmv : ∀ dst, dst ∈ fs.files →
      move_file fs use_hardlink f dst = .error (.fileExistsErr (dupMsg dst)) := by
    intro dst hd
    unfold move_file
    rw [if_pos hd, if_neg (fun hc => hsrc hc.1)]
  cases rest with
  | nil =>
    simp only [first_dest] at hdst ⊢
    simp only [rename_files, hmv _ hdst]
  | cons r rs =>
    simp only [first_dest] at hdst ⊢
    simp only [rename_files, cd_loop, hmv _ hdst]

/-- Witness for `rerun_relocate_raises`: a concrete already-moved two-file set
raises on its first file. -/
theorem rerun_relocate_raises_witness :
    rename_files true "out".data "Y".data ["s/a.mp4".data, "s/b.mp4".data]
        ⟨["out/Y-CD1.mp4".data, "out/Y-CD2.mp4".data], []⟩ =
      .error (.fileExistsErr (dupMsg (first_dest "out".data "Y".data
        ["s/a.mp4".data, "s/b.mp4".data]))) :=
  rerun_relocate_raises true "out".data "Y".data "s/a.mp4".data ["s/b.mp4".data]
    ⟨["out/Y-CD1.mp4".data, "out/Y-CD2.mp4".data], []⟩ (by decide) (by decide)

/-- Claim C3: for a file whose destination already exists, `move_file` deletes
the source and reports no move when the deletion succeeds, and fails the whole
relocation with the "destination exists and source cannot be deleted"
`FileExistsError` when it does not (datatype.py lines 181-190); consequently a
single-file `rename_files` whose destination exists returns successfully with
no newly created paths. -/
theorem move_file_duplicate (use_hardlink : Bool) (fs : FS) (src dst : PyStr)
    (hdst : dst ∈ fs.files) :
    ((src ∈ fs.files ∧ src ∉ fs.removeFails) →
        move_file fs use_hardlink src dst = .ok (false, removeFile fs src)) ∧
    (¬(src ∈ fs.files ∧ src ∉ fs.removeFails) →
        move_file fs use_hardlink src dst =
          .error (.fileExistsErr (dupMsg dst))) ∧
    (∀ save_dir basename, dst = pjoin save_dir (basename ++ extOf src) →
        src ∈ fs.files → src ∉ fs.removeFails →
        rename_files use_hardlink save_dir basename [src] fs =
          .ok ([], removeFile fs src)) := by
  refine ⟨?_, ?_, ?_⟩
  · intro h
    unfold move_file
    rw [if_pos hdst, if_pos h]
  · intro h
    unfold move_file
    rw [if_pos hdst, if_neg h]
  · intro save_dir basename hd h1 h2
    have hmv : move_file fs use_hardlink src (pjoin save_dir (basename ++ extOf src)) =
        .ok (false, removeFile fs src) := by
      unfold move_file
      rw [← hd, if_pos hdst, if_pos ⟨h1, h2⟩]
    simp only [rename_files, hmv]
    rfl

/-- Witness for `move_file_duplicate`: a concrete duplicate whose source is
deletable is resolved without an error and contributes no new path. -/
theorem move_file_duplicate_witness :
    rename_files false "out".data "X".data ["a/v.mp4".data]
        ⟨["a/v.mp4".data, "out/X.mp4".data], []⟩ =
      .ok ([], removeFile ⟨["a/v.mp4".data, "out/X.mp4".data], []⟩ "a/v.mp4".data) :=
  (move_file_duplicate false ⟨["a/v.mp4".data, "out/X.mp4".data], []⟩ "a/v.mp4".data
      (pjoin "out".data ("X".data ++ extOf "a/v.mp4".data)) (by decide)).2.2
    "out".data "X".data rfl (by decide) (by decide)

theorem cd_loop_ok (use_hardlink : Bool) (save_dir basename : PyStr) :
    ∀ (l : List PyStr) (i : Nat) (fs : FS),
      (∀ f ∈ l, f ∈ fs.files) →
      (∀ d ∈ cd_dests save_dir basename i l, d ∉ fs.files) →
      (cd_dests save_dir basename i l).Nodup →
      l.Nodup →
      ∃ fs2, cd_loop use_hardlink save_dir basename i l fs =
        .ok (cd_dests save_dir basename i l, fs2) := by
  intro l
  induction l with
  | nil => exact fun i fs _ _ _ _ => ⟨fs, rfl⟩
  | cons f rest ih =>
    intro i fs h1 h2 h3 h4
    have hd : pjoin save_dir (basename ++ cdTag i ++ extOf f) ∉ fs.files :=
      h2 _ (by simp [cd_dests])
    have hs : f ∈ fs.files := h1 f (by simp)
    have hmv : move_file fs use_hardlink f
        (pjoin save_dir (basename ++ cdTag i ++ extOf f)) =
        .ok (true, addFile (if use_hardlink then fs else removeFile fs f)
          (pjoin save_dir (basename ++ cdTag i ++ extOf f))) := by
      unfold move_file
      rw [if_neg hd, if_pos hs]
    have h3c := List.nodup_cons.mp (show _ from by simp only [cd_dests] at h3; exact h3)
    have h4c := List.nodup_cons.mp h4
    have hsub : ∀ p, p ∈ (addFile (if use_hardlink then fs else removeFile fs f)
        (pjoin save_dir (basename ++ cdTag i ++ extOf f))).files →
        p = pjoin save_dir (basename ++ cdTag i ++ extOf f) ∨ p ∈ fs.files := by
      intro p hp
      simp only [addFile, List.mem_cons] at hp
      rcases hp with hp | hp
      · exact Or.inl hp
      · cases use_hardlink with
        | true => exact Or.inr (by simpa using hp)
        | false => exact Or.inr (List.mem_of_mem_erase (by simpa [removeFile] using hp))
    have hkeep : ∀ p, p ∈ fs.files → p ≠ f →
        p ∈ (addFile (if use_hardlink then fs else removeFile fs f)
          (pjoin save_dir (basename ++ cdTag i ++ extOf f))).files := by
      intro p hp hne
      simp only [addFile, List.mem_cons]
      right
      cases use_hardlink with
      | true => simpa using hp
      | false => simpa [removeFile] using (List.mem_erase_of_ne hne).mpr hp
    have h1' : ∀ g ∈ rest, g ∈ (addFile (if use_hardlink then fs else removeFile fs f)
        (pjoin save_dir (basename ++ cdTag i ++ extOf f))).files := by
      intro g hg
      have hgf : g ≠ f := fun e => h4c.1 (e ▸ hg)
      exact hkeep g (h1 g (List.mem_cons_of_mem f hg)) hgf
    have h2' : ∀ d ∈ cd_dests save_dir basename (i + 1) rest,
        d ∉ (addFile (if use_hardlink then fs else removeFile fs f)
          (pjoin save_dir (basename ++ cdTag i ++ extOf f))).files := by
      intro d hdm hdin
      rcases hsub d hdin with rfl | hin
      · exact h3c.1 hdm
      · exact h2 d (by simp [cd_dests, hdm]) hin
    obtain ⟨fs2, hrec⟩ := ih (i + 1)
      (addFile (if use_hardlink then fs else removeFile fs f)
        (pjoin save_dir (basename ++ cdTag i ++ extOf f)))
      h1' h2' h3c.2 h4c.2
    refine ⟨fs2, ?_⟩
    simp only [cd_loop, hmv, hrec, cd_dests]
    rfl

/-- Claim C4: `rename_files` target naming.  Whenever all sources exist, no
destination pre-exists and sources and destinations are duplicate-free, the
relocation succeeds and the list of newly created paths is exactly
`rename_dests`: `{basename}{ext}` for a single-file set, and
`{basename}-CD{i}{ext}` for the file at 1-indexed position `i` of a larger
set, in original order (datatype.py lines 206-219). -/
theorem rename_files_target_naming (use_hardlink : Bool) (save_dir basename : PyStr)
    (files : List PyStr) (fs : FS)
    (h1 : ∀ f ∈ files, f ∈ fs.files)
    (h2 : ∀ d ∈ rename_dests save_dir basename files, d ∉ fs.files)
    (h3 : (rename_dests save_dir basename files).Nodup)
    (h4 : files.Nodup) (h5 : files ≠ []) :
    Except.map Prod.fst (rename_files use_hardlink save_dir basename files fs) =
      .ok (rename_dests save_dir basename files) := by
  rcases files with _ | ⟨f, _ | ⟨g, more⟩⟩
  · exact absurd rfl h5
  · have hd : pjoin save_dir (basename ++ extOf f) ∉ fs.files :=
      h2 _ (by simp [rename_dests])
    have hs : f ∈ fs.files := h1 f (by simp)
    have hmv : move_file fs use_hardlink f (pjoin save_dir (basename ++ extOf f)) =
        .ok (true, addFile (if use_hardlink then fs else removeFile fs f)
          (pjoin save_dir (basename ++ extOf f))) := by
      unfold move_file
      rw [if_neg hd, if_pos hs]
    simp only [rename_files, rename_dests, hmv]
    rfl
  · have h2' : ∀ d ∈ cd_dests save_dir basename 1 (f :: g :: more), d ∉ fs.files := by
      simpa [rename_dests] using h2
    have h3' : (cd_dests save_dir basename 1 (f :: g :: more)).Nodup := by
      simpa [rename_dests] using h3
    obtain ⟨fs2, h⟩ :=
      cd_loop_ok use_hardlink save_dir basename (f :: g :: more) 1 fs h1 h2' h3' h4
    simp only [rename_files, rename_dests, h]
    rfl

/-- Witness for `rename_files_target_naming`: a concrete 2-file set with
basename `X` and extensions `.mp4`, `.mp4` is relocated to `X-CD1.mp4` and
`X-CD2.mp4` in original file order. -/
theorem rename_files_target_naming_witness :
    Except.map Prod.fst (rename_files false "dest".data "X".data
        ["s/a.mp4".data, "s/b.mp4".data] ⟨["s/a.mp4".data, "s/b.mp4".data], []⟩) =
      .ok ["dest/X-CD1.mp4".data, "dest/X-CD2.mp4".data] := by
  have h := rename_files_target_naming false "dest".data "X".data
    ["s/a.mp4".data, "s/b.mp4".data] ⟨["s/a.mp4".data, "s/b.mp4".data], []⟩
    (by decide) (by decide) (by decide) (by decide) (by decide)
  rw [h]
  rfl
